import Mathlib

/-!
Formal model of `auto_backup_s3/models/db_backup.py`.

The module extends the Odoo `db.backup` model with an S3 mirror: on each
scheduled run it compares the base-names of the regular files in the
configured local folder with the base-names of the objects listed under
`"{s3_folder_name}/"` in the configured bucket, uploads the local files
missing remotely and deletes the remote objects missing locally.

The embedding is a shallow one: the external world (filesystem listing,
boto3 client construction, S3 listing/upload/delete outcomes) is an
explicit oracle per target (`TargetWorld`), the bucket contents are an
explicit state (`S3State`, a map from bucket name to the list of object
keys it holds), and each operation the code performs against the outside
world is recorded in an effect trace (`Effect`).  Exceptions are values
(`Exc`) carrying the Python exception class (`ExcKind`) and its
stringification.
-/

/-- The Python exception classes the module's `try/except` blocks
distinguish.  `botoCoreError` / `noCredentialsError` are the classes caught
inside `upload_to_s3`; `clientError` is `botocore.exceptions.ClientError`
(not a `BotoCoreError` subclass); `userError` is Odoo's `UserError`;
`attributeError` models `AttributeError`; `fileNotFoundError` and
`otherError` cover the local-scan exception classes.  None of the modelled
classes is a subclass of another modelled class, matching CPython. -/
inductive ExcKind where
  | botoCoreError
  | noCredentialsError
  | clientError
  | userError
  | attributeError
  | fileNotFoundError
  | otherError
  deriving DecidableEq

/-- A raised Python exception: its class and its `str(...)` form. -/
structure Exc where
  kind : ExcKind
  msg : String
  deriving DecidableEq

/-- One `db.backup` record with the fields the module adds (lines 17-23 of
the source).  `s3_folder_name = none` models an unset Char field, which
Odoo reads back as `False`; reading a set field gives `some` its string.
`folder` is the local backup folder inherited from the base model. -/
structure BackupRecord where
  s3_write : Bool
  folder : String
  s3_folder_name : Option String
  s3_bucket_name : String
  s3_access_key : String
  s3_secret_key : String
  s3_region : String
  deriving DecidableEq

/-- The external world for one target during one cycle.

* `listing`: outcome of `os.listdir(folder_path)` — the directory entries,
  or the exception the call raised;
* `isFile`: outcome of `os.path.isfile(os.path.join(folder_path, f))`;
* `connectErr`: exception raised by `get_s3_client` (boto3 client
  construction), if any;
* `listErr`: exception raised by the `list_objects_v2` call inside
  `list_s3_objects`, if any;
* `pageCut`: how many matching keys the service chose to return in the
  single `list_objects_v2` response; S3 returns at most `MaxKeys` (default
  1000) keys per response and may return fewer, signalling truncation;
* `uploadErr key`: exception raised inside `upload_to_s3`'s `try` block
  (client construction + `upload_file`) for that S3 key, if any;
* `deleteErr key`: exception raised by `delete_object` for that key. -/
structure TargetWorld where
  listing : Except Exc (List String)
  isFile : String → Bool
  connectErr : Option Exc
  listErr : Option Exc
  pageCut : Nat
  uploadErr : String → Option Exc
  deleteErr : String → Option Exc

/-- The object-storage state: each bucket name maps to the list of object
keys currently stored in it (a list used with set semantics). -/
abbrev S3State := String → List String

/-- One observable interaction with the outside services: boto3 client
construction, a bucket listing, an object upload, an object delete. -/
inductive Effect where
  | connect
  | listCall (bucket pfx : String)
  | uploadCall (bucket key filePath : String)
  | deleteCall (bucket key : String)
  deriving DecidableEq

/-- Python `s.split(c)` for a single-character separator, on the character
list: splitting `[]` gives `[[]]`, every occurrence of `c` starts a new
(possibly empty) segment. -/
def splitChar (c : Char) : List Char → List (List Char)
  | [] => [[]]
  | x :: xs =>
    if x = c then [] :: splitChar c xs
    else
      match splitChar c xs with
      | [] => [[x]]
      | y :: ys => (x :: y) :: ys

/-- Embeds Python `key.split('/')[-1]` (line 135) — the last
slash-separated segment.  On POSIX this coincides with
`os.path.basename` (line 114), which is `p[p.rfind('/')+1:]`. -/
def lastSeg (s : String) : String := String.mk ((splitChar '/' s.data).getLastD [])

/-- Python `s.strip()` (line 111): drop leading and trailing whitespace. -/
def pyStrip (s : String) : String :=
  String.mk (((s.data.dropWhile Char.isWhitespace).reverse.dropWhile
    Char.isWhitespace).reverse)

/-- The service-side `Prefix` filter of `list_objects_v2`: does key `k`
begin with the string `p`? -/
def keyStartsWith (k p : String) : Bool := p.data.isPrefixOf k.data

/-- Model of one `s3_client.list_objects_v2(Bucket=..., Prefix=p)` call:
the service selects the keys beginning with `p` and returns one page —
at most `MaxKeys` (default 1000) of them, possibly fewer (`cut` is the
service's choice for this response) — plus the `IsTruncated` flag.  The
`Contents` entries are modelled by their `Key` field, the only field the
module reads. -/
def list_objects_v2 (keys : List String) (p : String) (cut : Nat) :
    List String × Bool :=
  let ms := keys.filter (fun k => keyStartsWith k p)
  (ms.take (min cut 1000), decide (min cut 1000 < ms.length))

/-- Lines 60-62: `list_s3_objects` performs a single `list_objects_v2`
call with `Prefix=f"{folder_prefix}/"` and returns `response.get('Contents', [])`
— the `Contents` of that one response (no continuation-token handling). -/
def list_s3_objects (keys : List String) ( folder_prefix : String) (cut : Nat) :
    List String :=
  (list_objects_v2 keys ( folder_prefix ++ "/") cut).1

/-- Lines 113-114: the local file set
`{os.path.basename(f) for f in os.listdir(folder_path) if os.path.isfile(...)}`.
The Python set is modelled as a deduplicated list. -/
def localNames (entries : List String) (isFile : String → Bool) : List String :=
  ((entries.filter isFile).map lastSeg).dedup

/-- Observer (used only in theorem statements): the base-names of the
objects currently under `"{pfx}/"` in a key list. -/
def remoteNames (keys : List String) (pfx : String) : List String :=
  (keys.filter (fun k => keyStartsWith k (pfx ++ "/"))).map lastSeg

/-- Lines 136-137: `files_to_upload = local_files - s3_files` and
`files_to_delete = s3_files - local_files`, Python set difference on the
list-as-set representation. -/
def reconcilePlan (localFiles s3Files : List String) :
    List String × List String :=
  (localFiles.filter (fun n => !(s3Files.contains n)),
   s3Files.filter (fun n => !(localFiles.contains n)))

/-- Effect of a successful `upload_file` on the store: the key now exists
(overwriting any previous object at that key leaves the key set unchanged). -/
def bucketInsert (s : S3State) (b k : String) : S3State :=
  fun b' => if b' = b then (if (s b).contains k then s b else s b ++ [k]) else s b'

/-- Effect of a successful `delete_object` on the store: the key is gone;
deleting an absent key is a success that changes nothing (S3 semantics). -/
def bucketRemove (s : S3State) (b k : String) : S3State :=
  fun b' => if b' = b then (s b).filter (fun x => x != k) else s b'

/-- Lines 36-49: the exception behaviour of `upload_to_s3`.  Given the
exception (if any) raised inside its `try` block (boto3 client
construction + `upload_file`), returns the exception `upload_to_s3` lets
escape: `BotoCoreError` and `NoCredentialsError` are caught and re-raised
as `UserError('Failed to upload backup to S3: ' + str(e))`; every other
exception propagates unchanged; no exception means success. -/
def upload_to_s3 (err : Option Exc) : Option Exc :=
  match err with
  | none => none
  | some e =>
    if e.kind = ExcKind.botoCoreError ∨ e.kind = ExcKind.noCredentialsError then
      some ⟨ExcKind.userError, "Failed to upload backup to S3: " ++ e.msg⟩
    else some e

/-- Lines 139-154: the upload loop.  For each name (in plan order) the
code attempts `upload_to_s3` of `os.path.join(folder_path, name)` to key
`f"{s3_folder}/{name}"`; a raised `UserError` is logged and the loop
continues; any other exception propagates and aborts the whole
`schedule_backup` run.  Returns (new store, effect trace, escaped
exception). -/
def uploadPhase (bname : String) (w : TargetWorld) (s3f fp : String) :
    List String → S3State → S3State × List Effect × Option Exc
  | [], s => (s, [], none)
  | n :: ns, s =>
    let key := s3f ++ "/" ++ n
    let eff := Effect.uploadCall bname key (fp ++ "/" ++ n)
    match upload_to_s3 (w.uploadErr key) with
    | none =>
      let r := uploadPhase bname w s3f fp ns (bucketInsert s bname key)
      (r.1, eff :: r.2.1, r.2.2)
    | some e =>
      if e.kind = ExcKind.userError then
        let r := uploadPhase bname w s3f fp ns s
        (r.1, eff :: r.2.1, r.2.2)
      else (s, [eff], some e)

/-- Lines 156-163: the delete loop.  For each name the code attempts
`s3_client.delete_object(Bucket=..., Key=f"{s3_folder}/{name}")`; a raised
`ClientError` is logged and the loop continues; any other exception
propagates and aborts the whole run. -/
def deletePhase (bname : String) (w : TargetWorld) (s3f : String) :
    List String → S3State → S3State × List Effect × Option Exc
  | [], s => (s, [], none)
  | n :: ns, s =>
    let key := s3f ++ "/" ++ n
    let eff := Effect.deleteCall bname key
    match w.deleteErr key with
    | none =>
      let r := deletePhase bname w s3f ns (bucketRemove s bname key)
      (r.1, eff :: r.2.1, r.2.2)
    | some e =>
      if e.kind = ExcKind.clientError then
        let r := deletePhase bname w s3f ns s
        (r.1, eff :: r.2.1, r.2.2)
      else (s, [eff], some e)

/-- Lines 123-163, after a successful local scan: connect
(`get_s3_client`), list (`list_s3_objects`) — any exception from either is
caught, logged and the target is skipped —, then compute the set
difference and run the upload and delete loops. -/
def runCycle (rec : BackupRecord) (w : TargetWorld) (s3f : String)
    (entries : List String) (s : S3State) : S3State × List Effect × Option Exc :=
  match w.connectErr with
  | some _ => (s, [Effect.connect], none)
  | none =>
    match w.listErr with
    | some _ =>
      (s, [Effect.connect, Effect.listCall rec.s3_bucket_name (s3f ++ "/")], none)
    | none =>
      let s3Objects := list_s3_objects (s rec.s3_bucket_name) s3f w.pageCut
      let s3Files := (s3Objects.map lastSeg).dedup
      let plan := reconcilePlan (localNames entries w.isFile) s3Files
      let r1 := uploadPhase rec.s3_bucket_name w s3f rec.folder plan.1 s
      match r1.2.2 with
      | some e =>
        (r1.1, Effect.connect ::
          Effect.listCall rec.s3_bucket_name (s3f ++ "/") :: r1.2.1, some e)
      | none =>
        let r2 := deletePhase rec.s3_bucket_name w s3f plan.2 r1.1
        (r2.1, Effect.connect ::
          Effect.listCall rec.s3_bucket_name (s3f ++ "/") :: (r1.2.1 ++ r2.2.1),
          r2.2.2)

/-- The `str(err)` of the `AttributeError` raised by `False.strip()` when
`s3_folder_name` is unset (line 111). -/
def stripAttrMsg : String := "'bool' object has no attribute 'strip'"

/-- Lines 104-163 for one record of the loop body of `schedule_backup`:
skip if `s3_write` is off; `rec.s3_folder_name.strip()` raises
`AttributeError` (uncaught) when the field is unset; a failing
`os.listdir` scan is caught (both `except` arms log and `continue`);
otherwise run the cycle.  Returns (new store, effect trace, exception
escaping `schedule_backup`). -/
def processRecord (rec : BackupRecord) (w : TargetWorld) (s : S3State) :
    S3State × List Effect × Option Exc :=
  if rec.s3_write then
    match rec.s3_folder_name with
    | none => (s, [], some ⟨ExcKind.attributeError, stripAttrMsg⟩)
    | some fn =>
      match w.listing with
      | Except.error _ => (s, [], none)
      | Except.ok entries => runCycle rec w (pyStrip fn) entries s
  else (s, [], none)

/-- Lines 99-163: `schedule_backup` (after the inherited
`super().schedule_backup()` call, an external collaborator) iterates the
records returned by `self.search([])` in order; an exception escaping one
record's processing aborts the whole run, leaving the remaining records
unprocessed.  Returns the final store, the per-record effect traces (one
entry per record that was reached), and the escaping exception, if any. -/
def runSchedule : List (BackupRecord × TargetWorld) → S3State →
    S3State × List (List Effect) × Option Exc
  | [], s => (s, [], none)
  | (rec, w) :: rest, s =>
    let r := processRecord rec w s
    match r.2.2 with
    | some e => (r.1, [r.2.1], some e)
    | none =>
      let rs := runSchedule rest r.1
      (rs.1, r.2.1 :: rs.2.1, rs.2.2)

/-- The `display_notification` payload returned by
`action_test_s3_connection` (lines 90-97). -/
structure Notification where
  title : String
  message : String
  msgType : String
  sticky : Bool
  deriving DecidableEq

/-- Lines 64-97: `action_test_s3_connection` builds a client
(`get_s3_client`) and performs one `list_objects_v2(Bucket=...)` call; any
exception from either step (caught by `except Exception`) yields the
failure notification with `message = str(err)` and type `danger`,
otherwise the success notification.  `connectErr` / `listErr` are the
exceptions (if any) the two steps raise.  Returns the notification and
the trace of remote interactions performed. -/
def action_test_s3_connection (rec : BackupRecord)
    (connectErr listErr : Option Exc) : Notification × List Effect :=
  match connectErr with
  | some e =>
    (⟨"Connection Test Failed!", e.msg, "danger", false⟩, [Effect.connect])
  | none =>
    match listErr with
    | some e =>
      (⟨"Connection Test Failed!", e.msg, "danger", false⟩,
       [Effect.connect, Effect.listCall rec.s3_bucket_name ""])
    | none =>
      (⟨"Connection Test Succeeded!", "Everything seems properly set up!",
        "success", false⟩,
       [Effect.connect, Effect.listCall rec.s3_bucket_name ""])

/-! ### Helper lemmas: `splitChar`, `lastSeg`, `keyStartsWith` -/

lemma splitChar_ne_nil (c : Char) (l : List Char) : splitChar c l ≠ [] := by
  induction l with
  | nil => simp [splitChar]
  | cons x xs ih =>
    simp only [splitChar]
    split
    · simp
    · cases h : splitChar c xs with
      | nil => simp
      | cons y ys => simp

lemma getLastD_irrel {α : Type _} (l : List α) (h : l ≠ []) (d₁ d₂ : α) :
    l.getLastD d₁ = l.getLastD d₂ := by
  cases l with
  | nil => exact absurd rfl h
  | cons a l => simp only [List.getLastD_cons]

lemma getLastD_append_right {α : Type _} (l₁ l₂ : List α) (h : l₂ ≠ []) (d : α) :
    (l₁ ++ l₂).getLastD d = l₂.getLastD d := by
  induction l₁ generalizing d with
  | nil => rfl
  | cons a l₁ ih =>
    rw [List.cons_append, List.getLastD_cons, ih a,
      getLastD_irrel l₂ h a d]

lemma splitChar_append_sep (c : Char) (xs ys : List Char) :
    ∃ p ps, splitChar c (xs ++ c :: ys) = (p :: ps) ++ splitChar c ys := by
  induction xs with
  | nil => exact ⟨[], [], by simp [splitChar]⟩
  | cons x xs ih =>
    obtain ⟨p, ps, hp⟩ := ih
    by_cases hx : x = c
    · refine ⟨[], p :: ps, ?_⟩
      simp [splitChar, hx, hp]
    · refine ⟨x :: p, ps, ?_⟩
      simp [splitChar, hx, hp]

lemma splitChar_getLastD_append (c : Char) (xs ys : List Char) :
    (splitChar c (xs ++ c :: ys)).getLastD [] = (splitChar c ys).getLastD [] := by
  obtain ⟨p, ps, hp⟩ := splitChar_append_sep c xs ys
  rw [hp, getLastD_append_right _ _ (splitChar_ne_nil c ys)]

lemma splitChar_of_not_mem (c : Char) (l : List Char) (h : c ∉ l) :
    splitChar c l = [l] := by
  induction l with
  | nil => rfl
  | cons x xs ih =>
    have hx : ¬ x = c := fun hxc => h (hxc ▸ List.mem_cons_self x xs)
    have hxs : c ∉ xs := fun hc => h (List.mem_cons_of_mem _ hc)
    simp [splitChar, hx, ih hxs]

lemma lastSeg_of_not_mem (s : String) (h : '/' ∉ s.data) : lastSeg s = s := by
  apply String.ext
  rw [lastSeg, splitChar_of_not_mem '/' s.data h]
  rfl

lemma lastSeg_append_sep (a b : String) : lastSeg (a ++ "/" ++ b) = lastSeg b := by
  apply String.ext
  show ((splitChar '/' (a ++ "/" ++ b).data).getLastD []) = _
  have hdata : (a ++ "/" ++ b).data = a.data ++ '/' :: b.data := by
    rw [String.data_append, String.data_append]
    simp
  rw [hdata, splitChar_getLastD_append]
  rfl

lemma lastSeg_flat (pfx n : String) (h : '/' ∉ n.data) :
    lastSeg (pfx ++ "/" ++ n) = n := by
  rw [lastSeg_append_sep, lastSeg_of_not_mem n h]

lemma lastSeg_marker (pfx : String) : lastSeg (pfx ++ "/") = "" := by
  have : pfx ++ "/" = pfx ++ "/" ++ "" := (String.append_empty _).symm
  rw [this, lastSeg_append_sep]
  rfl

lemma contains_iff_mem (l : List String) (a : String) :
    l.contains a = true ↔ a ∈ l := List.elem_iff

lemma keyStartsWith_iff (k p : String) :
    keyStartsWith k p = true ↔ p.data <+: k.data := List.isPrefixOf_iff_prefix

lemma keyStartsWith_append (p n : String) : keyStartsWith (p ++ n) p = true := by
  rw [keyStartsWith_iff, String.data_append]
  exact List.prefix_append _ _

lemma keyStartsWith_self (p : String) : keyStartsWith p p = true := by
  have := keyStartsWith_append p ""
  rwa [String.append_empty] at this

lemma str_append_left_cancel {a b c : String} (h : a ++ b = a ++ c) : b = c := by
  apply String.ext
  have h2 : a.data ++ b.data = a.data ++ c.data := by
    rw [← String.data_append, ← String.data_append, h]
  exact List.append_cancel_left h2

/-! ### Helper lemmas: bucket state and the two transfer loops -/

lemma mem_bucketInsert (s : S3State) (b k b' k' : String) :
    k' ∈ bucketInsert s b k b' ↔ k' ∈ s b' ∨ (b' = b ∧ k' = k) := by
  by_cases hb : b' = b
  · subst hb
    by_cases hc : (s b').contains k = true
    · have hk : k ∈ s b' := (contains_iff_mem _ _).mp hc
      simp only [bucketInsert, if_pos rfl, if_pos hc, true_and]
      constructor
      · exact Or.inl
      · rintro (h | rfl)
        · exact h
        · exact hk
    · have hk : k ∉ s b' := fun h => hc ((contains_iff_mem _ _).mpr h)
      simp [bucketInsert, hc, hk]
  · simp [bucketInsert, hb]

lemma mem_bucketRemove (s : S3State) (b k b' k' : String) :
    k' ∈ bucketRemove s b k b' ↔ k' ∈ s b' ∧ ¬(b' = b ∧ k' = k) := by
  by_cases hb : b' = b
  · subst hb
    simp [bucketRemove, List.mem_filter, bne_iff_ne]
  · simp [bucketRemove, hb]

lemma uploadPhase_noAbort (bname : String) (w : TargetWorld) (s3f fp : String)
    (hup : ∀ key e, w.uploadErr key = some e →
      e.kind = ExcKind.botoCoreError ∨ e.kind = ExcKind.noCredentialsError ∨
      e.kind = ExcKind.userError) :
    ∀ names s, (uploadPhase bname w s3f fp names s).2.2 = none := by
  intro names
  induction names with
  | nil => intro s; rfl
  | cons n ns ih =>
    intro s
    cases he : w.uploadErr (s3f ++ "/" ++ n) with
    | none => simp [uploadPhase, upload_to_s3, he, ih]
    | some e =>
      rcases hup _ _ he with h | h | h
      · simp [uploadPhase, upload_to_s3, he, h, ih]
      · simp [uploadPhase, upload_to_s3, he, h, ih]
      · by_cases hw : e.kind = ExcKind.botoCoreError ∨ e.kind = ExcKind.noCredentialsError
        · simp [uploadPhase, upload_to_s3, he, hw, ih]
        · simp [uploadPhase, upload_to_s3, he, hw, h, ih]

lemma deletePhase_noAbort (bname : String) (w : TargetWorld) (s3f : String)
    (hdel : ∀ key e, w.deleteErr key = some e → e.kind = ExcKind.clientError) :
    ∀ names s, (deletePhase bname w s3f names s).2.2 = none := by
  intro names
  induction names with
  | nil => intro s; rfl
  | cons n ns ih =>
    intro s
    cases he : w.deleteErr (s3f ++ "/" ++ n) with
    | none => simp [deletePhase, he, ih]
    | some e => simp [deletePhase, he, hdel _ _ he, ih]

lemma deletePhase_trace_mem (bname : String) (w : TargetWorld) (s3f : String)
    (hdel : ∀ key e, w.deleteErr key = some e → e.kind = ExcKind.clientError) :
    ∀ names s n, n ∈ names →
      Effect.deleteCall bname (s3f ++ "/" ++ n) ∈ (deletePhase bname w s3f names s).2.1 := by
  intro names
  induction names with
  | nil => intro s n h; exact absurd h (List.not_mem_nil n)
  | cons m ns ih =>
    intro s n h
    rcases List.mem_cons.mp h with rfl | hmem
    · cases he : w.deleteErr (s3f ++ "/" ++ n) with
      | none => simp [deletePhase, he]
      | some e => simp [deletePhase, he, hdel _ _ he]
    · cases he : w.deleteErr (s3f ++ "/" ++ m) with
      | none => simp [deletePhase, he]; exact Or.inr (ih _ n hmem)
      | some e => simp [deletePhase, he, hdel _ _ he]; exact Or.inr (ih _ n hmem)

lemma uploadPhase_state (bname : String) (w : TargetWorld) (s3f fp : String)
    (hup0 : ∀ key, w.uploadErr key = none) :
    ∀ names s b k, k ∈ (uploadPhase bname w s3f fp names s).1 b ↔
      k ∈ s b ∨ (b = bname ∧ ∃ n ∈ names, k = s3f ++ "/" ++ n) := by
  intro names
  induction names with
  | nil => intro s b k; simp [uploadPhase]
  | cons n ns ih =>
    intro s b k
    simp only [uploadPhase, hup0, upload_to_s3]
    rw [ih, mem_bucketInsert]
    simp only [List.mem_cons]
    constructor
    · rintro ((h | ⟨rfl, rfl⟩) | ⟨rfl, m, hm, rfl⟩)
      · exact Or.inl h
      · exact Or.inr ⟨rfl, n, Or.inl rfl, rfl⟩
      · exact Or.inr ⟨rfl, m, Or.inr hm, rfl⟩
    · rintro (h | ⟨rfl, m, hm | hm, rfl⟩)
      · exact Or.inl (Or.inl h)
      · subst hm; exact Or.inl (Or.inr ⟨rfl, rfl⟩)
      · exact Or.inr ⟨rfl, m, hm, rfl⟩

lemma deletePhase_state (bname : String) (w : TargetWorld) (s3f : String)
    (hdel0 : ∀ key, w.deleteErr key = none) :
    ∀ names s b k, k ∈ (deletePhase bname w s3f names s).1 b ↔
      k ∈ s b ∧ ¬(b = bname ∧ ∃ n ∈ names, k = s3f ++ "/" ++ n) := by
  intro names
  induction names with
  | nil => intro s b k; simp [deletePhase]
  | cons n ns ih =>
    intro s b k
    simp only [deletePhase, hdel0]
    rw [ih, mem_bucketRemove]
    simp only [List.mem_cons]
    constructor
    · rintro ⟨⟨hk, hne⟩, hni⟩
      refine ⟨hk, ?_⟩
      rintro ⟨rfl, m, hm | hm, rfl⟩
      · exact hne ⟨rfl, hm ▸ rfl⟩
      · exact hni ⟨rfl, m, hm, rfl⟩
    · rintro ⟨hk, hni⟩
      refine ⟨⟨hk, ?_⟩, ?_⟩
      · rintro ⟨rfl, rfl⟩
        exact hni ⟨rfl, n, Or.inl rfl, rfl⟩
      · rintro ⟨rfl, m, hm, rfl⟩
        exact hni ⟨rfl, m, Or.inr hm, rfl⟩

lemma contains_eq_false_iff (l : List String) (a : String) :
    l.contains a = false ↔ a ∉ l := by
  rw [← contains_iff_mem]
  cases h : l.contains a <;> simp

lemma mem_reconcilePlan_fst (L R : List String) (n : String) :
    n ∈ (reconcilePlan L R).1 ↔ n ∈ L ∧ n ∉ R := by
  simp only [reconcilePlan, List.mem_filter, Bool.not_eq_true', contains_eq_false_iff]

lemma mem_reconcilePlan_snd (L R : List String) (n : String) :
    n ∈ (reconcilePlan L R).2 ↔ n ∈ R ∧ n ∉ L := by
  simp only [reconcilePlan, List.mem_filter, Bool.not_eq_true', contains_eq_false_iff]

lemma list_s3_objects_complete (keys : List String) (s3f : String) (cut : Nat)
    (hpage : (keys.filter (fun k => keyStartsWith k (s3f ++ "/"))).length ≤ min cut 1000) :
    list_s3_objects keys s3f cut = keys.filter (fun k => keyStartsWith k (s3f ++ "/")) := by
  simp only [list_s3_objects, list_objects_v2]
  exact List.take_of_length_le hpage

lemma cycle_state (rec : BackupRecord) (w : TargetWorld) (s3f : String)
    (entries : List String) (s : S3State)
    (hconn : w.connectErr = none) (hlist : w.listErr = none)
    (hup0 : ∀ key, w.uploadErr key = none) (hdel0 : ∀ key, w.deleteErr key = none)
    (hpage : ((s rec.s3_bucket_name).filter
      (fun k => keyStartsWith k (s3f ++ "/"))).length ≤ min w.pageCut 1000) :
    (runCycle rec w s3f entries s).2.2 = none ∧
    ∀ b k, k ∈ (runCycle rec w s3f entries s).1 b ↔
      ((k ∈ s b ∨ (b = rec.s3_bucket_name ∧ ∃ n,
        (n ∈ localNames entries w.isFile ∧
          n ∉ ((s rec.s3_bucket_name).filter
            (fun k => keyStartsWith k (s3f ++ "/"))).map lastSeg) ∧
        k = s3f ++ "/" ++ n)) ∧
      ¬(b = rec.s3_bucket_name ∧ ∃ n,
        (n ∈ ((s rec.s3_bucket_name).filter
          (fun k => keyStartsWith k (s3f ++ "/"))).map lastSeg ∧
          n ∉ localNames entries w.isFile) ∧
        k = s3f ++ "/" ++ n)) := by
  have hup : ∀ key e, w.uploadErr key = some e →
      e.kind = ExcKind.botoCoreError ∨ e.kind = ExcKind.noCredentialsError ∨
      e.kind = ExcKind.userError := by
    intro key e h
    rw [hup0] at h
    cases h
  have hdel : ∀ key e, w.deleteErr key = some e → e.kind = ExcKind.clientError := by
    intro key e h
    rw [hdel0] at h
    cases h
  have hms := list_s3_objects_complete (s rec.s3_bucket_name) s3f w.pageCut hpage
  have h1 := uploadPhase_noAbort rec.s3_bucket_name w s3f rec.folder hup
    (reconcilePlan (localNames entries w.isFile)
      (((list_s3_objects (s rec.s3_bucket_name) s3f w.pageCut).map lastSeg).dedup)).1 s
  constructor
  · simp only [runCycle, hconn, hlist, h1]
    exact deletePhase_noAbort rec.s3_bucket_name w s3f hdel _ _
  · intro b k
    simp only [runCycle, hconn, hlist, h1]
    rw [deletePhase_state rec.s3_bucket_name w s3f hdel0,
      uploadPhase_state rec.s3_bucket_name w s3f rec.folder hup0]
    simp only [mem_reconcilePlan_fst, mem_reconcilePlan_snd, List.mem_dedup, hms]

lemma mem_localNames_bare (entries : List String) (isFile : String → Bool)
    (hbare : ∀ e ∈ entries, '/' ∉ e.data ∧ e ≠ "") (y : String)
    (hy : y ∈ localNames entries isFile) : '/' ∉ y.data ∧ y ≠ "" := by
  have hy' : ∃ e, e ∈ entries.filter isFile ∧ lastSeg e = y :=
    List.mem_map.mp (List.mem_dedup.mp (by simpa [localNames] using hy))
  rcases hy' with ⟨e, hef, hle⟩
  obtain ⟨he, -⟩ := List.mem_filter.mp hef
  have hb := hbare e he
  rw [lastSeg_of_not_mem e hb.1] at hle
  exact hle ▸ hb

lemma cycle_names (rec : BackupRecord) (w : TargetWorld) (s3f : String)
    (entries : List String) (s : S3State)
    (hconn : w.connectErr = none) (hlist : w.listErr = none)
    (hup0 : ∀ key, w.uploadErr key = none) (hdel0 : ∀ key, w.deleteErr key = none)
    (hpage : ((s rec.s3_bucket_name).filter
      (fun k => keyStartsWith k (s3f ++ "/"))).length ≤ min w.pageCut 1000)
    (hbare : ∀ e ∈ entries, '/' ∉ e.data ∧ e ≠ "")
    (hflat : ∀ k ∈ s rec.s3_bucket_name, keyStartsWith k (s3f ++ "/") = true →
      k = s3f ++ "/" ++ lastSeg k ∧ '/' ∉ (lastSeg k).data) :
    ∀ x, x ∈ remoteNames ((runCycle rec w s3f entries s).1 rec.s3_bucket_name) s3f ↔
      x ∈ localNames entries w.isFile := by
  obtain ⟨-, hmem⟩ := cycle_state rec w s3f entries s hconn hlist hup0 hdel0 hpage
  intro x
  constructor
  · intro hx
    have hx' : ∃ a, (a ∈ (runCycle rec w s3f entries s).1 rec.s3_bucket_name ∧
        keyStartsWith a (s3f ++ "/") = true) ∧ lastSeg a = x := by
      simpa [remoteNames] using hx
    rcases hx' with ⟨k, ⟨hk, hpred⟩, hlk⟩
    rw [hmem] at hk
    obtain ⟨hin, hndel⟩ := hk
    subst hlk
    rcases hin with hB | ⟨-, n, ⟨hnL, hnR⟩, rfl⟩
    · obtain ⟨hkeq, hkbar⟩ := hflat k hB hpred
      by_contra hxnL
      exact hndel ⟨rfl, lastSeg k,
        ⟨List.mem_map.mpr ⟨k, List.mem_filter.mpr ⟨hB, hpred⟩, rfl⟩, hxnL⟩, hkeq⟩
    · rw [lastSeg_flat s3f n (mem_localNames_bare entries w.isFile hbare n hnL).1]
      exact hnL
  · intro hxL
    have hxprops := mem_localNames_bare entries w.isFile hbare x hxL
    by_cases hxR : x ∈ ((s rec.s3_bucket_name).filter
        (fun k => keyStartsWith k (s3f ++ "/"))).map lastSeg
    · rcases List.mem_map.mp hxR with ⟨k, hkms, hlk⟩
      obtain ⟨hkB, hkpred⟩ := List.mem_filter.mp hkms
      obtain ⟨hkeq, -⟩ := hflat k hkB hkpred
      rw [hlk] at hkeq
      have hks' : k ∈ (runCycle rec w s3f entries s).1 rec.s3_bucket_name := by
        rw [hmem]
        refine ⟨Or.inl hkB, ?_⟩
        rintro ⟨-, m, ⟨hmR, hmnL⟩, hkm⟩
        rw [hkeq] at hkm
        have hxm := str_append_left_cancel hkm
        exact hmnL (hxm ▸ hxL)
      simp only [remoteNames]
      exact List.mem_map.mpr ⟨k, List.mem_filter.mpr ⟨hks', hkpred⟩, hlk⟩
    · have hks' : (s3f ++ "/" ++ x) ∈ (runCycle rec w s3f entries s).1 rec.s3_bucket_name := by
        rw [hmem]
        refine ⟨Or.inr ⟨rfl, x, ⟨hxL, hxR⟩, rfl⟩, ?_⟩
        rintro ⟨-, m, ⟨hmR, hmnL⟩, hkm⟩
        have hxm := str_append_left_cancel hkm
        exact hmnL (hxm ▸ hxL)
      simp only [remoteNames]
      exact List.mem_map.mpr ⟨s3f ++ "/" ++ x,
        List.mem_filter.mpr ⟨hks', keyStartsWith_append _ _⟩,
        lastSeg_flat s3f x hxprops.1⟩

lemma processRecord_run (rec : BackupRecord) (w : TargetWorld) (s : S3State)
    (fn : String) (entries : List String)
    (hw : rec.s3_write = true) (hfn : rec.s3_folder_name = some fn)
    (hscan : w.listing = Except.ok entries) :
    processRecord rec w s = runCycle rec w (pyStrip fn) entries s := by
  simp [processRecord, hw, hfn, hscan]

/-! ### Claim theorems -/

/-- Claim C1: for a target whose local scan and remote listing succeed, the
plan is pure set difference on base-names — `files_to_upload` is the local
set minus the remote set and `files_to_delete` the remote set minus the
local set — and when the two sets are equal the cycle performs no upload
and no delete call (its trace is exactly the connect and the list call)
and leaves the store untouched. -/
theorem claim_C1_plan_is_set_difference (rec : BackupRecord) (w : TargetWorld)
    (s : S3State) (fn : String) (entries : List String)
    (hw : rec.s3_write = true) (hfn : rec.s3_folder_name = some fn)
    (hscan : w.listing = Except.ok entries)
    (hconn : w.connectErr = none) (hlist : w.listErr = none) :
    ((reconcilePlan (localNames entries w.isFile)
        (((list_s3_objects (s rec.s3_bucket_name) (pyStrip fn) w.pageCut).map
          lastSeg).dedup)).1.toFinset =
      (localNames entries w.isFile).toFinset \
        (((list_s3_objects (s rec.s3_bucket_name) (pyStrip fn) w.pageCut).map
          lastSeg).dedup).toFinset) ∧
    ((reconcilePlan (localNames entries w.isFile)
        (((list_s3_objects (s rec.s3_bucket_name) (pyStrip fn) w.pageCut).map
          lastSeg).dedup)).2.toFinset =
      (((list_s3_objects (s rec.s3_bucket_name) (pyStrip fn) w.pageCut).map
          lastSeg).dedup).toFinset \ (localNames entries w.isFile).toFinset) ∧
    ((localNames entries w.isFile).toFinset =
        (((list_s3_objects (s rec.s3_bucket_name) (pyStrip fn) w.pageCut).map
          lastSeg).dedup).toFinset →
      (processRecord rec w s).2.1 =
        [Effect.connect, Effect.listCall rec.s3_bucket_name (pyStrip fn ++ "/")] ∧
      (processRecord rec w s).1 = s) := by
  refine ⟨?_, ?_, ?_⟩
  · refine Finset.ext (fun a => ?_)
    simp [mem_reconcilePlan_fst, List.mem_toFinset, Finset.mem_sdiff]
  · refine Finset.ext (fun a => ?_)
    simp [mem_reconcilePlan_snd, List.mem_toFinset, Finset.mem_sdiff]
  · intro hEq
    have hLR : ∀ n, n ∈ localNames entries w.isFile ↔
        n ∈ ((list_s3_objects (s rec.s3_bucket_name) (pyStrip fn) w.pageCut).map
          lastSeg).dedup := by
      intro n
      rw [← List.mem_toFinset, hEq, List.mem_toFinset]
    have h1 : (reconcilePlan (localNames entries w.isFile)
        (((list_s3_objects (s rec.s3_bucket_name) (pyStrip fn) w.pageCut).map
          lastSeg).dedup)).1 = [] := by
      refine List.filter_eq_nil_iff.mpr (fun n hn => ?_)
      simp only [Bool.not_eq_true', contains_eq_false_iff, not_not]
      exact (hLR n).mp hn
    have h2 : (reconcilePlan (localNames entries w.isFile)
        (((list_s3_objects (s rec.s3_bucket_name) (pyStrip fn) w.pageCut).map
          lastSeg).dedup)).2 = [] := by
      refine List.filter_eq_nil_iff.mpr (fun n hn => ?_)
      simp only [Bool.not_eq_true', contains_eq_false_iff, not_not]
      exact (hLR n).mpr hn
    rw [processRecord_run rec w s fn entries hw hfn hscan]
    constructor
    · simp [runCycle, hconn, hlist, h1, h2, uploadPhase, deletePhase]
    · simp [runCycle, hconn, hlist, h1, h2, uploadPhase, deletePhase]

/-- Witness for C1 at a concrete input: one local file `a.sql`, remote set
already `{a.sql}`, equal sets — the cycle's trace is exactly the connect
and list call and the store is unchanged. -/
theorem claim_C1_witness :
    (processRecord ⟨true, "f", some "p", "b", "ak", "sk", "r"⟩
      ⟨Except.ok ["a.sql"], fun _ => true, none, none, 1000,
        fun _ => none, fun _ => none⟩ (fun _ => ["p/a.sql"])).2.1 =
      [Effect.connect, Effect.listCall "b" (pyStrip "p" ++ "/")] :=
  ((claim_C1_plan_is_set_difference
    ⟨true, "f", some "p", "b", "ak", "sk", "r"⟩
    ⟨Except.ok ["a.sql"], fun _ => true, none, none, 1000,
      fun _ => none, fun _ => none⟩ (fun _ => ["p/a.sql"]) "p" ["a.sql"]
    rfl rfl rfl rfl rfl).2.2 (by decide)).1

/-- Claim C3 is false as stated: a remote object whose key nests a further
path segment under the prefix (here `p/a/b.sql`) has base-name `b.sql`, so
the cycle schedules a delete of the key `p/b.sql` — which succeeds as an
S3 no-op — and the object survives.  With an empty local folder, every
upload and every delete of the cycle succeeds, yet afterwards the remote
base-name set under the prefix is `{b.sql}`, not the (empty) local set. -/
theorem claim_C3_counterexample :
    (processRecord ⟨true, "f", some "p", "b", "ak", "sk", "r"⟩
      ⟨Except.ok [], fun _ => true, none, none, 1000,
        fun _ => none, fun _ => none⟩ (fun _ => ["p/a/b.sql"])).2.2 = none ∧
    (remoteNames ((processRecord ⟨true, "f", some "p", "b", "ak", "sk", "r"⟩
      ⟨Except.ok [], fun _ => true, none, none, 1000,
        fun _ => none, fun _ => none⟩ (fun _ => ["p/a/b.sql"])).1 "b") "p").toFinset ≠
    (localNames [] (fun _ => true)).toFinset := by
  decide

/-- Claim C3 (amended): if the cycle's listing is complete (the single
page the service returns covers every key under the prefix) and every
remote key under the prefix is flat — of the form `"{prefix}/{name}"`
with no further `/` in the name — then after a cycle in which every
upload and every delete succeeds, the set of remote base-names under the
target's prefix equals the set of local file base-names. -/
theorem claim_C3_invariant_amended (rec : BackupRecord) (w : TargetWorld)
    (s : S3State) (fn : String) (entries : List String)
    (hw : rec.s3_write = true) (hfn : rec.s3_folder_name = some fn)
    (hscan : w.listing = Except.ok entries)
    (hbare : ∀ e ∈ entries, '/' ∉ e.data ∧ e ≠ "")
    (hconn : w.connectErr = none) (hlist : w.listErr = none)
    (hup0 : ∀ key, w.uploadErr key = none) (hdel0 : ∀ key, w.deleteErr key = none)
    (hpage : ((s rec.s3_bucket_name).filter
      (fun k => keyStartsWith k (pyStrip fn ++ "/"))).length ≤ min w.pageCut 1000)
    (hflat : ∀ k ∈ s rec.s3_bucket_name,
      keyStartsWith k (pyStrip fn ++ "/") = true →
      k = pyStrip fn ++ "/" ++ lastSeg k ∧ '/' ∉ (lastSeg k).data) :
    (processRecord rec w s).2.2 = none ∧
    (remoteNames ((processRecord rec w s).1 rec.s3_bucket_name)
        (pyStrip fn)).toFinset = (localNames entries w.isFile).toFinset := by
  rw [processRecord_run rec w s fn entries hw hfn hscan]
  refine ⟨(cycle_state rec w (pyStrip fn) entries s hconn hlist hup0 hdel0 hpage).1, ?_⟩
  refine Finset.ext (fun x => ?_)
  rw [List.mem_toFinset, List.mem_toFinset]
  exact cycle_names rec w (pyStrip fn) entries s hconn hlist hup0 hdel0 hpage
    hbare hflat x

/-- Witness for C3 (amended) at the spec's worked example: local folder
`{a.sql, b.sql}`, remote prefix `{b.sql, c.sql}`; after the fully
successful cycle the remote base-name set equals `{a.sql, b.sql}`. -/
theorem claim_C3_witness :
    (processRecord ⟨true, "f", some "p", "b", "ak", "sk", "r"⟩
      ⟨Except.ok ["a.sql", "b.sql"], fun _ => true, none, none, 1000,
        fun _ => none, fun _ => none⟩ (fun _ => ["p/b.sql", "p/c.sql"])).2.2 = none ∧
    (remoteNames ((processRecord ⟨true, "f", some "p", "b", "ak", "sk", "r"⟩
      ⟨Except.ok ["a.sql", "b.sql"], fun _ => true, none, none, 1000,
        fun _ => none, fun _ => none⟩ (fun _ => ["p/b.sql", "p/c.sql"])).1 "b")
      (pyStrip "p")).toFinset =
    (localNames ["a.sql", "b.sql"] (fun _ => true)).toFinset :=
  claim_C3_invariant_amended ⟨true, "f", some "p", "b", "ak", "sk", "r"⟩
    ⟨Except.ok ["a.sql", "b.sql"], fun _ => true, none, none, 1000,
      fun _ => none, fun _ => none⟩ (fun _ => ["p/b.sql", "p/c.sql"]) "p"
    ["a.sql", "b.sql"] rfl rfl rfl (by decide) rfl rfl (fun _ => rfl)
    (fun _ => rfl) (by decide) (by decide)

/-- Claim C5: when the local folder scan raises (missing folder or any
other access error), that target's cycle is aborted with no remote call
at all — its effect trace is empty and the store is untouched — no
exception escapes, and the remaining targets are still processed exactly
as if this target had been skipped. -/
theorem claim_C5_scan_failure_short_circuit (rec : BackupRecord)
    (w : TargetWorld) (s : S3State) (fn : String) (e : Exc)
    (rest : List (BackupRecord × TargetWorld))
    (hw : rec.s3_write = true) (hfn : rec.s3_folder_name = some fn)
    (hscan : w.listing = Except.error e) :
    processRecord rec w s = (s, [], none) ∧
    runSchedule ((rec, w) :: rest) s =
      ((runSchedule rest s).1, [] :: (runSchedule rest s).2.1,
        (runSchedule rest s).2.2) := by
  have h1 : processRecord rec w s = (s, [], none) := by
    simp [processRecord, hw, hfn, hscan]
  exact ⟨h1, by simp [runSchedule, h1]⟩

/-- Witness for C5: the first target's folder is missing
(`FileNotFoundError`), the second target is intact; the run makes no call
for the first target and proceeds to the second. -/
theorem claim_C5_witness :
    processRecord ⟨true, "f", some "p", "b", "ak", "sk", "r"⟩
      ⟨Except.error ⟨ExcKind.fileNotFoundError, "No such file or directory"⟩,
        fun _ => true, none, none, 1000, fun _ => none, fun _ => none⟩
      (fun _ => []) = (fun _ => [], [], none) ∧
    runSchedule [(⟨true, "f", some "p", "b", "ak", "sk", "r"⟩,
      ⟨Except.error ⟨ExcKind.fileNotFoundError, "No such file or directory"⟩,
        fun _ => true, none, none, 1000, fun _ => none, fun _ => none⟩),
      (⟨true, "g", some "q", "b2", "ak", "sk", "r"⟩,
       ⟨Except.ok [], fun _ => true, none, none, 1000, fun _ => none, fun _ => none⟩)]
      (fun _ => []) =
      ((runSchedule [(⟨true, "g", some "q", "b2", "ak", "sk", "r"⟩,
        ⟨Except.ok [], fun _ => true, none, none, 1000, fun _ => none, fun _ => none⟩)]
        (fun _ => [])).1,
       [] :: (runSchedule [(⟨true, "g", some "q", "b2", "ak", "sk", "r"⟩,
        ⟨Except.ok [], fun _ => true, none, none, 1000, fun _ => none, fun _ => none⟩)]
        (fun _ => [])).2.1,
       (runSchedule [(⟨true, "g", some "q", "b2", "ak", "sk", "r"⟩,
        ⟨Except.ok [], fun _ => true, none, none, 1000, fun _ => none, fun _ => none⟩)]
        (fun _ => [])).2.2) :=
  claim_C5_scan_failure_short_circuit _ _ _ "p"
    ⟨ExcKind.fileNotFoundError, "No such file or directory"⟩ _ rfl rfl rfl

/-- Claim C9: an enabled target whose `s3_folder_name` is unset makes
`rec.s3_folder_name.strip()` raise `AttributeError` before any scan or
remote call (empty trace, store untouched); the exception is uncaught, so
the scheduler run aborts and no further record is processed. -/
theorem claim_C9_unset_folder_aborts (rec : BackupRecord) (w : TargetWorld)
    (s : S3State) (rest : List (BackupRecord × TargetWorld))
    (hw : rec.s3_write = true) (hfn : rec.s3_folder_name = none) :
    processRecord rec w s = (s, [], some ⟨ExcKind.attributeError, stripAttrMsg⟩) ∧
    runSchedule ((rec, w) :: rest) s =
      (s, [[]], some ⟨ExcKind.attributeError, stripAttrMsg⟩) := by
  have h1 : processRecord rec w s =
      (s, [], some ⟨ExcKind.attributeError, stripAttrMsg⟩) := by
    simp [processRecord, hw, hfn]
  exact ⟨h1, by simp [runSchedule, h1]⟩

/-- Witness for C9: first target enabled with `s3_folder_name` unset and a
healthy second target behind it; the run stops at the first with the
`AttributeError`, reaching only that record. -/
theorem claim_C9_witness :
    runSchedule [(⟨true, "f", none, "b", "ak", "sk", "r"⟩,
      ⟨Except.ok ["a.sql"], fun _ => true, none, none, 1000,
        fun _ => none, fun _ => none⟩),
      (⟨true, "g", some "q", "b2", "ak", "sk", "r"⟩,
       ⟨Except.ok [], fun _ => true, none, none, 1000,
        fun _ => none, fun _ => none⟩)] (fun _ => []) =
      (fun _ => [], [[]], some ⟨ExcKind.attributeError, stripAttrMsg⟩) :=
  (claim_C9_unset_folder_aborts ⟨true, "f", none, "b", "ak", "sk", "r"⟩
    ⟨Except.ok ["a.sql"], fun _ => true, none, none, 1000,
      fun _ => none, fun _ => none⟩ (fun _ => [])
    [(⟨true, "g", some "q", "b2", "ak", "sk", "r"⟩,
      ⟨Except.ok [], fun _ => true, none, none, 1000,
        fun _ => none, fun _ => none⟩)] rfl rfl).2

/-- Claim C6 is false as stated: with a nested remote key `p/a/b.sql` and
an empty local folder, the first run's only operation — deleting the key
`p/b.sql` — succeeds as an S3 no-op and changes nothing, so the second
run, with no external change in between, again schedules and attempts the
same delete: the second run performs a delete call. -/
theorem claim_C6_counterexample :
    (processRecord ⟨true, "f", some "p", "b", "ak", "sk", "r"⟩
      ⟨Except.ok [], fun _ => true, none, none, 1000,
        fun _ => none, fun _ => none⟩ (fun _ => ["p/a/b.sql"])).2.2 = none ∧
    Effect.deleteCall "b" ("p" ++ "/" ++ "b.sql") ∈
      (processRecord ⟨true, "f", some "p", "b", "ak", "sk", "r"⟩
        ⟨Except.ok [], fun _ => true, none, none, 1000,
          fun _ => none, fun _ => none⟩
        ((processRecord ⟨true, "f", some "p", "b", "ak", "sk", "r"⟩
          ⟨Except.ok [], fun _ => true, none, none, 1000,
            fun _ => none, fun _ => none⟩ (fun _ => ["p/a/b.sql"])).1)).2.1 := by
  decide

/-- Claim C6 (amended): if the first run fully succeeds (complete listing,
every upload and delete succeeding, every remote key under the prefix
flat) and nothing external changes before the second run (same directory
entries and file predicate, healthy connect/list, complete listing), then
the second run performs zero uploads and zero deletes — its trace is
exactly the connect and the list call. -/
theorem claim_C6_idempotent_amended (rec : BackupRecord) (w₁ w₂ : TargetWorld)
    (s : S3State) (fn : String) (entries : List String)
    (hw : rec.s3_write = true) (hfn : rec.s3_folder_name = some fn)
    (hscan1 : w₁.listing = Except.ok entries)
    (hbare : ∀ e ∈ entries, '/' ∉ e.data ∧ e ≠ "")
    (hconn1 : w₁.connectErr = none) (hlist1 : w₁.listErr = none)
    (hup01 : ∀ key, w₁.uploadErr key = none)
    (hdel01 : ∀ key, w₁.deleteErr key = none)
    (hpage1 : ((s rec.s3_bucket_name).filter
      (fun k => keyStartsWith k (pyStrip fn ++ "/"))).length ≤ min w₁.pageCut 1000)
    (hflat : ∀ k ∈ s rec.s3_bucket_name,
      keyStartsWith k (pyStrip fn ++ "/") = true →
      k = pyStrip fn ++ "/" ++ lastSeg k ∧ '/' ∉ (lastSeg k).data)
    (hscan2 : w₂.listing = Except.ok entries)
    (hfile2 : ∀ e, w₂.isFile e = w₁.isFile e)
    (hconn2 : w₂.connectErr = none) (hlist2 : w₂.listErr = none)
    (hpage2 : (((processRecord rec w₁ s).1 rec.s3_bucket_name).filter
      (fun k => keyStartsWith k (pyStrip fn ++ "/"))).length ≤ min w₂.pageCut 1000) :
    (processRecord rec w₂ ((processRecord rec w₁ s).1)).2.1 =
      [Effect.connect, Effect.listCall rec.s3_bucket_name (pyStrip fn ++ "/")] := by
  rw [processRecord_run rec w₁ s fn entries hw hfn hscan1] at hpage2 ⊢
  rw [processRecord_run rec w₂ _ fn entries hw hfn hscan2]
  have hnames := cycle_names rec w₁ (pyStrip fn) entries s hconn1 hlist1 hup01
    hdel01 hpage1 hbare hflat
  have hLeq : localNames entries w₂.isFile = localNames entries w₁.isFile := by
    simp only [localNames]
    rw [List.filter_congr (fun e _ => hfile2 e)]
  revert hnames hpage2
  generalize (runCycle rec w₁ (pyStrip fn) entries s).1 = s₁
  intro hpage2 hnames
  have hms2 := list_s3_objects_complete (s₁ rec.s3_bucket_name)
    (pyStrip fn) w₂.pageCut hpage2
  have hR2 : ∀ x, x ∈ ((list_s3_objects (s₁ rec.s3_bucket_name)
      (pyStrip fn) w₂.pageCut).map lastSeg).dedup ↔
      x ∈ localNames entries w₁.isFile := by
    intro x
    rw [List.mem_dedup, hms2]
    exact hnames x
  have h1 : (reconcilePlan (localNames entries w₂.isFile)
      (((list_s3_objects (s₁ rec.s3_bucket_name)
        (pyStrip fn) w₂.pageCut).map lastSeg).dedup)).1 = [] := by
    refine List.filter_eq_nil_iff.mpr (fun n hn => ?_)
    simp only [Bool.not_eq_true', contains_eq_false_iff, not_not]
    exact (hR2 n).mpr (hLeq ▸ hn)
  have h2 : (reconcilePlan (localNames entries w₂.isFile)
      (((list_s3_objects (s₁ rec.s3_bucket_name)
        (pyStrip fn) w₂.pageCut).map lastSeg).dedup)).2 = [] := by
    refine List.filter_eq_nil_iff.mpr (fun n hn => ?_)
    simp only [Bool.not_eq_true', contains_eq_false_iff, not_not]
    rw [hLeq]
    exact (hR2 n).mp hn
  simp [runCycle, hconn2, hlist2, h1, h2, uploadPhase, deletePhase]

/-- Witness for C6 (amended) at the spec's worked example: after the fully
successful first run on local `{a.sql, b.sql}` versus remote
`{b.sql, c.sql}`, a second unchanged run's trace is just connect + list. -/
theorem claim_C6_witness :
    (processRecord ⟨true, "f", some "p", "b", "ak", "sk", "r"⟩
      ⟨Except.ok ["a.sql", "b.sql"], fun _ => true, none, none, 1000,
        fun _ => none, fun _ => none⟩
      ((processRecord ⟨true, "f", some "p", "b", "ak", "sk", "r"⟩
        ⟨Except.ok ["a.sql", "b.sql"], fun _ => true, none, none, 1000,
          fun _ => none, fun _ => none⟩
        (fun _ => ["p/b.sql", "p/c.sql"])).1)).2.1 =
      [Effect.connect, Effect.listCall "b" (pyStrip "p" ++ "/")] :=
  claim_C6_idempotent_amended ⟨true, "f", some "p", "b", "ak", "sk", "r"⟩
    ⟨Except.ok ["a.sql", "b.sql"], fun _ => true, none, none, 1000,
      fun _ => none, fun _ => none⟩
    ⟨Except.ok ["a.sql", "b.sql"], fun _ => true, none, none, 1000,
      fun _ => none, fun _ => none⟩
    (fun _ => ["p/b.sql", "p/c.sql"]) "p" ["a.sql", "b.sql"]
    rfl rfl rfl (by decide) rfl rfl (fun _ => rfl) (fun _ => rfl)
    (by decide) (by decide) rfl (fun _ => rfl) rfl rfl (by decide)

/-- Claim C10: if the listing returns an object whose key is exactly
`"{prefix}/"` (a folder-marker), its computed base-name
`key.split('/')[-1]` is the empty string; directory entries are never
empty, so the empty string cannot be in the local file set, and the cycle
schedules and attempts a delete of the key `"{prefix}/"` (provided the
listing is complete and no earlier upload or delete failure aborts the
run — upload failures of the caught kinds and `ClientError` delete
failures are fine). -/
theorem claim_C10_marker_deleted (rec : BackupRecord) (w : TargetWorld)
    (s : S3State) (fn : String) (entries : List String)
    (hw : rec.s3_write = true) (hfn : rec.s3_folder_name = some fn)
    (hscan : w.listing = Except.ok entries)
    (hbare : ∀ e ∈ entries, '/' ∉ e.data ∧ e ≠ "")
    (hconn : w.connectErr = none) (hlist : w.listErr = none)
    (hup : ∀ key e, w.uploadErr key = some e →
      e.kind = ExcKind.botoCoreError ∨ e.kind = ExcKind.noCredentialsError ∨
      e.kind = ExcKind.userError)
    (hdel : ∀ key e, w.deleteErr key = some e → e.kind = ExcKind.clientError)
    (hpage : ((s rec.s3_bucket_name).filter
      (fun k => keyStartsWith k (pyStrip fn ++ "/"))).length ≤ min w.pageCut 1000)
    (hmarker : (pyStrip fn ++ "/") ∈ s rec.s3_bucket_name) :
    Effect.deleteCall rec.s3_bucket_name (pyStrip fn ++ "/") ∈
      (processRecord rec w s).2.1 := by
  rw [processRecord_run rec w s fn entries hw hfn hscan]
  have h1 := uploadPhase_noAbort rec.s3_bucket_name w (pyStrip fn) rec.folder hup
    (reconcilePlan (localNames entries w.isFile)
      (((list_s3_objects (s rec.s3_bucket_name) (pyStrip fn) w.pageCut).map
        lastSeg).dedup)).1 s
  simp only [runCycle, hconn, hlist, h1]
  have hmem0 : "" ∈ (reconcilePlan (localNames entries w.isFile)
      (((list_s3_objects (s rec.s3_bucket_name) (pyStrip fn) w.pageCut).map
        lastSeg).dedup)).2 := by
    rw [mem_reconcilePlan_snd]
    constructor
    · rw [List.mem_dedup, list_s3_objects_complete _ _ _ hpage]
      exact List.mem_map.mpr ⟨pyStrip fn ++ "/",
        List.mem_filter.mpr ⟨hmarker, keyStartsWith_self _⟩, lastSeg_marker _⟩
    · intro hmem
      exact (mem_localNames_bare entries w.isFile hbare "" hmem).2 rfl
  have h2 := deletePhase_trace_mem rec.s3_bucket_name w (pyStrip fn) hdel
    (reconcilePlan (localNames entries w.isFile)
      (((list_s3_objects (s rec.s3_bucket_name) (pyStrip fn) w.pageCut).map
        lastSeg).dedup)).2
    (uploadPhase rec.s3_bucket_name w (pyStrip fn) rec.folder
      (reconcilePlan (localNames entries w.isFile)
        (((list_s3_objects (s rec.s3_bucket_name) (pyStrip fn) w.pageCut).map
          lastSeg).dedup)).1 s).1 "" hmem0
  rw [String.append_empty] at h2
  exact List.mem_cons_of_mem _ (List.mem_cons_of_mem _
    (List.mem_append.mpr (Or.inr h2)))

/-- Witness for C10: the bucket holds exactly the folder-marker `p/`; the
cycle attempts a delete of the key `p/`. -/
theorem claim_C10_witness :
    Effect.deleteCall "b" (pyStrip "p" ++ "/") ∈
      (processRecord ⟨true, "f", some "p", "b", "ak", "sk", "r"⟩
        ⟨Except.ok ["a.sql"], fun _ => true, none, none, 1000,
          fun _ => none, fun _ => none⟩ (fun _ => ["p/"])).2.1 :=
  claim_C10_marker_deleted ⟨true, "f", some "p", "b", "ak", "sk", "r"⟩
    ⟨Except.ok ["a.sql"], fun _ => true, none, none, 1000,
      fun _ => none, fun _ => none⟩ (fun _ => ["p/"]) "p" ["a.sql"]
    rfl rfl rfl (by decide) rfl rfl
    (fun key e h => Option.noConfusion h) (fun key e h => Option.noConfusion h)
    (by decide) (by decide)

/-- Claim C2 is false as stated: the upload loop catches only `UserError`
(and `upload_to_s3` wraps only `BotoCoreError`/`NoCredentialsError` into
`UserError`), so an upload failing with `botocore.exceptions.ClientError`
— e.g. an HTTP 403 — propagates out of `schedule_backup`: the run ends
with that exception and the second target is never reached (only one
per-record trace exists). -/
theorem claim_C2_counterexample :
    (runSchedule [(⟨true, "f", some "p", "b", "ak", "sk", "r"⟩,
        ⟨Except.ok ["a.sql"], fun _ => true, none, none, 1000,
          fun _ => some ⟨ExcKind.clientError, "An error occurred (403)"⟩,
          fun _ => none⟩),
       (⟨true, "g", some "q", "b2", "ak", "sk", "r"⟩,
        ⟨Except.ok [], fun _ => true, none, none, 1000,
          fun _ => none, fun _ => none⟩)] (fun _ => [])).2.2 =
      some ⟨ExcKind.clientError, "An error occurred (403)"⟩ ∧
    (runSchedule [(⟨true, "f", some "p", "b", "ak", "sk", "r"⟩,
        ⟨Except.ok ["a.sql"], fun _ => true, none, none, 1000,
          fun _ => some ⟨ExcKind.clientError, "An error occurred (403)"⟩,
          fun _ => none⟩),
       (⟨true, "g", some "q", "b2", "ak", "sk", "r"⟩,
        ⟨Except.ok [], fun _ => true, none, none, 1000,
          fun _ => none, fun _ => none⟩)] (fun _ => [])).2.1.length = 1 := by
  decide

/-- Claim C2 (amended): per-file failures of the kinds the code handles —
uploads raising `BotoCoreError`/`NoCredentialsError` (wrapped into
`UserError`) or `UserError` itself, deletes raising `ClientError` — are
logged and skipped: provided every enabled record has a set folder name,
no exception escapes the scheduler entry point and every record is
processed (one trace per record).  Failures of other exception kinds do
propagate, as the counterexample shows. -/
theorem claim_C2_per_file_failures_isolated_amended
    (recs : List (BackupRecord × TargetWorld)) (s : S3State)
    (hset : ∀ rw ∈ recs, rw.1.s3_write = true → rw.1.s3_folder_name.isSome = true)
    (hup : ∀ rw ∈ recs, ∀ key e, rw.2.uploadErr key = some e →
      e.kind = ExcKind.botoCoreError ∨ e.kind = ExcKind.noCredentialsError ∨
      e.kind = ExcKind.userError)
    (hdel : ∀ rw ∈ recs, ∀ key e, rw.2.deleteErr key = some e →
      e.kind = ExcKind.clientError) :
    (runSchedule recs s).2.2 = none ∧
    (runSchedule recs s).2.1.length = recs.length := by
  induction recs generalizing s with
  | nil => simp [runSchedule]
  | cons rw rest ih =>
    obtain ⟨rec, w⟩ := rw
    have hrec : (processRecord rec w s).2.2 = none := by
      by_cases hw : rec.s3_write = true
      · cases hofn : rec.s3_folder_name with
        | none =>
          have := hset (rec, w) (List.mem_cons_self _ _) hw
          rw [hofn] at this
          simp at this
        | some fn =>
          cases hscan : w.listing with
          | error e => simp [processRecord, hw, hofn, hscan]
          | ok entries =>
            rw [processRecord_run rec w s fn entries hw hofn hscan]
            cases hc : w.connectErr with
            | some e => simp [runCycle, hc]
            | none =>
              cases hl : w.listErr with
              | some e => simp [runCycle, hc, hl]
              | none =>
                have h1 := uploadPhase_noAbort rec.s3_bucket_name w (pyStrip fn)
                  rec.folder (hup (rec, w) (List.mem_cons_self _ _))
                  (reconcilePlan (localNames entries w.isFile)
                    (((list_s3_objects (s rec.s3_bucket_name) (pyStrip fn)
                      w.pageCut).map lastSeg).dedup)).1 s
                simp only [runCycle, hc, hl, h1]
                exact deletePhase_noAbort rec.s3_bucket_name w (pyStrip fn)
                  (hdel (rec, w) (List.mem_cons_self _ _)) _ _
      · have hw' : rec.s3_write = false := by
          revert hw
          cases rec.s3_write <;> simp
        simp [processRecord, hw']
    obtain ⟨ihe, ihl⟩ := ih ((processRecord rec w s).1)
      (fun rw hm => hset rw (List.mem_cons_of_mem _ hm))
      (fun rw hm => hup rw (List.mem_cons_of_mem _ hm))
      (fun rw hm => hdel rw (List.mem_cons_of_mem _ hm))
    constructor
    · simp [runSchedule, hrec, ihe]
    · simp [runSchedule, hrec, ihl]

/-- Witness for C2 (amended): a single target whose one upload fails with
`BotoCoreError` (a handled kind): the failure is swallowed — no exception
escapes and the record is processed. -/
theorem claim_C2_witness :
    (runSchedule [(⟨true, "f", some "p", "b", "ak", "sk", "r"⟩,
        ⟨Except.ok ["a.sql"], fun _ => true, none, none, 1000,
          fun _ => some ⟨ExcKind.botoCoreError, "Connection timed out"⟩,
          fun _ => none⟩)] (fun _ => [])).2.2 = none ∧
    (runSchedule [(⟨true, "f", some "p", "b", "ak", "sk", "r"⟩,
        ⟨Except.ok ["a.sql"], fun _ => true, none, none, 1000,
          fun _ => some ⟨ExcKind.botoCoreError, "Connection timed out"⟩,
          fun _ => none⟩)] (fun _ => [])).2.1.length = 1 :=
  claim_C2_per_file_failures_isolated_amended _ _
    (by intro rw hm hw; rcases List.mem_singleton.mp hm with rfl; rfl)
    (by
      intro rw hm key e h
      rcases List.mem_singleton.mp hm with rfl
      simp only at h
      rcases Option.some.inj h with rfl
      exact Or.inl rfl)
    (by
      intro rw hm key e h
      rcases List.mem_singleton.mp hm with rfl
      exact Option.noConfusion h)

/-- Claim C4 is false as stated: `list_s3_objects` makes a single
`list_objects_v2` call and returns its `Contents` without following the
continuation token, so when the service paginates (here it returns one of
the two matching keys and sets `IsTruncated`), the returned sequence is
not the complete set of objects under `"{prefix}/"`. -/
theorem claim_C4_counterexample :
    (list_objects_v2 ["p/a", "p/b"] ("p" ++ "/") 1).2 = true ∧
    ["p/a", "p/b"].filter (fun k => keyStartsWith k ("p" ++ "/")) =
      ["p/a", "p/b"] ∧
    list_s3_objects ["p/a", "p/b"] "p" 1 ≠ ["p/a", "p/b"] := by
  decide

/-- Claim C4 (amended): `list_s3_objects` returns the `Contents` of one
`list_objects_v2` response only.  It does return an empty sequence (not
an error) when nothing matches, and it returns the complete sequence of
objects whose key starts with `"{prefix}/"` exactly when the service's
single page covers every match (at most `MaxKeys = 1000` of them); with
more matches than one page holds, the result is incomplete. -/
theorem claim_C4_single_page_amended (keys : List String) (pfx : String)
    (cut : Nat) :
    (keys.filter (fun k => keyStartsWith k (pfx ++ "/")) = [] →
      list_s3_objects keys pfx cut = []) ∧
    ((keys.filter (fun k => keyStartsWith k (pfx ++ "/"))).length ≤
        min cut 1000 →
      list_s3_objects keys pfx cut =
        keys.filter (fun k => keyStartsWith k (pfx ++ "/"))) := by
  constructor
  · intro h
    simp [list_s3_objects, list_objects_v2, h]
  · exact list_s3_objects_complete keys pfx cut

/-- Witness for C4 (amended): an empty prefix match yields `[]`, and a
listing whose two matches fit in one page is returned completely. -/
theorem claim_C4_witness :
    (["q/a"].filter (fun k => keyStartsWith k ("p" ++ "/")) = [] →
      list_s3_objects ["q/a"] "p" 1000 = []) ∧
    ((["q/a"].filter (fun k => keyStartsWith k ("p" ++ "/"))).length ≤
        min 1000 1000 →
      list_s3_objects ["q/a"] "p" 1000 =
        ["q/a"].filter (fun k => keyStartsWith k ("p" ++ "/"))) :=
  claim_C4_single_page_amended ["q/a"] "p" 1000

/-- Claim C7 is false as stated: the code computes `key.split('/')[-1]`,
the last slash-separated segment.  For the key `pre/a/b.sql`, which is of
the form `"{prefix}/{rest}"` with `prefix = pre` and `rest = a/b.sql`,
the computed base-name is `b.sql`, not `rest`. -/
theorem claim_C7_counterexample :
    ("pre" ++ "/" ++ "a/b.sql" : String) = "pre/a/b.sql" ∧
    lastSeg ("pre" ++ "/" ++ "a/b.sql") ≠ "a/b.sql" := by
  decide

/-- Claim C7 (amended): the base-name placed in the remote set is the last
slash-separated segment of the key; for a key of the form
`"{prefix}/{rest}"` it equals `rest` exactly when `rest` contains no
further `/`. -/
theorem claim_C7_basename_amended (pfx rest : String)
    (h : '/' ∉ rest.data) : lastSeg (pfx ++ "/" ++ rest) = rest :=
  lastSeg_flat pfx rest h

/-- Witness for C7 (amended): for the flat key `p/a.sql` the computed
base-name is `a.sql`. -/
theorem claim_C7_witness :
    '/' ∉ ("a.sql" : String).data ∧ lastSeg ("p" ++ "/" ++ "a.sql") = "a.sql" :=
  ⟨by decide, claim_C7_basename_amended "p" "a.sql" (by decide)⟩

/-- Claim C8: the connection test succeeds exactly when neither client
construction nor the single listing call raises; any raised error yields
the failure notification whose message is the stringified error (hence
non-empty whenever the error's stringification is) with severity
`danger`; and the test performs only the connect and the listing call —
no upload, delete, or write to stored state. -/
theorem claim_C8_test_connection (rec : BackupRecord) (ce le : Option Exc) :
    ((action_test_s3_connection rec ce le).1.msgType = "success" ↔
      ce = none ∧ le = none) ∧
    (∀ e, ce = some e ∨ (ce = none ∧ le = some e) →
      (action_test_s3_connection rec ce le).1.message = e.msg ∧
      (action_test_s3_connection rec ce le).1.msgType = "danger" ∧
      (e.msg ≠ "" → (action_test_s3_connection rec ce le).1.message ≠ "")) ∧
    (∀ eff ∈ (action_test_s3_connection rec ce le).2,
      eff = Effect.connect ∨ eff = Effect.listCall rec.s3_bucket_name "") := by
  cases ce with
  | some e0 =>
    refine ⟨⟨fun h => ?_, fun h => absurd h.1 (by simp)⟩, ?_, ?_⟩
    · rw [show (action_test_s3_connection rec (some e0) le).1.msgType =
        "danger" from rfl] at h
      exact absurd h (by decide)
    · intro e he
      rcases he with he | ⟨he, -⟩
      · rcases Option.some.inj he with rfl
        exact ⟨rfl, rfl, fun h => h⟩
      · exact absurd he (by simp)
    · intro eff heff
      rcases List.mem_singleton.mp heff with rfl
      exact Or.inl rfl
  | none =>
    cases le with
    | some e0 =>
      refine ⟨⟨fun h => ?_, fun h => absurd h.2 (by simp)⟩, ?_, ?_⟩
      · rw [show (action_test_s3_connection rec none (some e0)).1.msgType =
          "danger" from rfl] at h
        exact absurd h (by decide)
      · intro e he
        rcases he with he | ⟨-, he⟩
        · exact absurd he (by simp)
        · rcases Option.some.inj he with rfl
          exact ⟨rfl, rfl, fun h => h⟩
      · intro eff heff
        rcases List.mem_cons.mp heff with rfl | heff'
        · exact Or.inl rfl
        · rcases List.mem_singleton.mp heff' with rfl
          exact Or.inr rfl
    | none =>
      refine ⟨⟨fun _ => ⟨rfl, rfl⟩, fun _ => rfl⟩, ?_, ?_⟩
      · intro e he
        rcases he with he | ⟨-, he⟩ <;> exact absurd he (by simp)
      · intro eff heff
        rcases List.mem_cons.mp heff with rfl | heff'
        · exact Or.inl rfl
        · rcases List.mem_singleton.mp heff' with rfl
          exact Or.inr rfl

/-- Witness for C8: a listing failure with message `NoSuchBucket` yields a
`danger` notification carrying exactly that non-empty message. -/
theorem claim_C8_witness :
    (action_test_s3_connection ⟨true, "f", some "p", "b", "ak", "sk", "r"⟩
      none (some ⟨ExcKind.clientError, "NoSuchBucket"⟩)).1.message =
      "NoSuchBucket" ∧
    (action_test_s3_connection ⟨true, "f", some "p", "b", "ak", "sk", "r"⟩
      none (some ⟨ExcKind.clientError, "NoSuchBucket"⟩)).1.msgType = "danger" :=
  ⟨((claim_C8_test_connection ⟨true, "f", some "p", "b", "ak", "sk", "r"⟩
      none (some ⟨ExcKind.clientError, "NoSuchBucket"⟩)).2.1
      ⟨ExcKind.clientError, "NoSuchBucket"⟩ (Or.inr ⟨rfl, rfl⟩)).1,
   ((claim_C8_test_connection ⟨true, "f", some "p", "b", "ak", "sk", "r"⟩
      none (some ⟨ExcKind.clientError, "NoSuchBucket"⟩)).2.1
      ⟨ExcKind.clientError, "NoSuchBucket"⟩ (Or.inr ⟨rfl, rfl⟩)).2.1⟩
